import Mathlib

/-!
Shallow embedding of `scripts/upload_script.py` from bcgov/weather-archive.

The script seeds a MinIO bucket with placeholder CSV objects: it loads a
sensor list from `sensors.json`, generates random (sensor, year, month)
tasks, and uploads a fixed 4-byte payload per task, skipping the whole run
when the bucket already holds objects.

Modelling conventions:
- a JSON record is an association list of string fields;
- the random source is a stream of naturals, consumed one draw at a time
  (`randint` and each selection step of `random.sample` take one draw);
- the object store is the list of objects in the single bucket, with an
  `Option` wrapper for bucket existence; `put_object` is a name-keyed
  upsert, as in MinIO;
- exceptions raised by `put_object` are modelled by an oracle giving, per
  task index, `none` (success) or `some msg` (the exception's message);
- the thread pool runs independent tasks and only their collected results
  are observed, so the upload phase is modelled as a fold over the task
  list, recording for each task its put call, its boolean result and its
  log line.
-/

namespace UploadScript

/-- Module constant `BUCKET_NAME = "paws"`. -/
def BUCKET_NAME : String := "paws"

/-- Module constant `YEARS = [2022, 2023, 2024, 2025]`. -/
def YEARS : List Nat := [2022, 2023, 2024, 2025]

/-- Module constant `JSON_FILE = "sensors.json"`. -/
def JSON_FILE : String := "sensors.json"

/-- A JSON record: an association list from field names to string values. -/
abbrev Item : Type := List (String × String)

/-- Sensor loading, line 45:
`sensors = [item['id'] for item in json.load(f) if 'id' in item]`. -/
def loadSensors (items : List Item) : List String :=
  items.filterMap (fun item => List.lookup "id" item)

/-- Client configuration produced by `create_minio_client`. -/
structure MinioConfig where
  endpoint : String
  accessKey : Option String
  secretKey : Option String
  secure : Bool
  deriving DecidableEq, Repr

/-- ASCII lowercasing of a string, character by character: the embedding of
Python `str.lower()` on the ASCII strings this program compares. -/
def strLower (s : String) : String :=
  String.mk (s.data.map Char.toLower)

/-- Lines 14-21: build the client from environment variables.
`env` maps a variable name to its value when set. -/
def create_minio_client (env : String → Option String) : MinioConfig :=
  { endpoint := (env "MINIO_ENDPOINT").getD "localhost:9000"
    accessKey := env "MINIO_ACCESS_KEY"
    secretKey := env "MINIO_SECRET_KEY"
    secure := strLower ((env "MINIO_SECURE").getD "false") == "true" }

/-- An upload task, line 65: the tuple `(sensor_id, year, month)`. -/
abbrev Task : Type := String × Nat × Nat

/-- The random source: a stream of natural-number draws, consumed from the
front.  Reading past the end yields 0; every draw is reduced modulo the
size of the range it selects from, so any stream denotes a valid run. -/
abbrev RandSrc : Type := List Nat

/-- One draw from the stream: its first element (0 when exhausted) and the
rest of the stream. -/
def draw (rs : RandSrc) : Nat × RandSrc :=
  (List.headD rs 0, List.tail rs)

/-- `random.randint(a, b)`: one draw mapped into the inclusive range
`[a, b]`. -/
def randint (a b : Nat) (rs : RandSrc) : Nat × RandSrc :=
  let d := draw rs
  (a + d.1 % (b + 1 - a), d.2)

/-- Selection core of `random.sample(pool, k)`: `k` times, draw an index
into the remaining pool, take that element and remove it.  Yields `k`
distinct elements of the pool whenever `k ≤ pool.length`. -/
def sampleAux (pool : List Nat) (k : Nat) (rs : RandSrc) :
    List Nat × RandSrc :=
  match k, pool with
  | 0, _ => ([], rs)
  | _ + 1, [] => ([], rs)
  | k + 1, p :: ps =>
      let d := draw rs
      let i := d.1 % (p :: ps).length
      let x := (p :: ps).getD i 0
      let rest := sampleAux ((p :: ps).eraseIdx i) k d.2
      (x :: rest.1, rest.2)

/-- Line 63, inner call: `random.sample(range(1, 13), k)` — `k` distinct
months from 1..12. -/
def sampleMonths (k : Nat) (rs : RandSrc) : List Nat × RandSrc :=
  sampleAux (List.range' 1 12) k rs

/-- Line 63: `months = random.sample(range(1, 13), random.randint(2, 4))`.
The `randint` argument is evaluated first, then the sample is taken. -/
def genMonths (rs : RandSrc) : List Nat × RandSrc :=
  let k := randint 2 4 rs
  sampleMonths k.1 k.2

/-- Inner loop of lines 61-65: for one sensor, iterate the years, sampling
months for each and emitting one task per month. -/
def genYearTasks (s : String) : List Nat → RandSrc → List Task × RandSrc
  | [], rs => ([], rs)
  | y :: ys, rs =>
      let ms := genMonths rs
      let rest := genYearTasks s ys ms.2
      (ms.1.map (fun m => (s, y, m)) ++ rest.1, rest.2)

/-- Lines 59-65: build the flat task list, sensor by sensor. -/
def genTasks : List String → RandSrc → List Task × RandSrc
  | [], rs => ([], rs)
  | s :: ss, rs =>
      let ts := genYearTasks s YEARS rs
      let rest := genTasks ss ts.2
      (ts.1 ++ rest.1, rest.2)

/-- An object stored in the bucket: name, body bytes, content type. -/
structure MObject where
  name : String
  body : List Nat
  contentType : String
  deriving DecidableEq, Repr

/-- The bytes uploaded for every task, line 26: `data = b"test"`
(the ASCII encoding of the string `test`). -/
def uploadData : List Nat :=
  "test".data.map Char.toNat

/-- One `put_object` call as issued on the wire: target bucket, object
name, body, content type (lines 29-35). -/
structure PutCall where
  bucket : String
  object : String
  body : List Nat
  contentType : String
  deriving DecidableEq, Repr

/-- MinIO `put_object` semantics on the bucket contents: overwrite the
object of that name when present, else append it. -/
def putObject (objs : List MObject) (name : String) (body : List Nat)
    (ct : String) : List MObject :=
  if objs.any (fun o => o.name == name) then
    objs.map (fun o => if o.name == name then ⟨name, body, ct⟩ else o)
  else
    objs ++ [⟨name, body, ct⟩]

/-- Look an object up by name in the bucket contents. -/
def findObject (objs : List MObject) (name : String) : Option MObject :=
  objs.find? (fun o => o.name == name)

/-- Line 25: `f"{sensor_id}_{year}_{month:02d}.csv"`.  `pad2` renders
`{month:02d}`: minimum width 2, zero-filled. -/
def pad2 (n : Nat) : String :=
  if n < 10 then "0" ++ toString n else toString n

/-- The object name built for a task, line 25. -/
def taskFilename (sensor : String) (year month : Nat) : String :=
  sensor ++ "_" ++ toString year ++ "_" ++ pad2 month ++ ".csv"

/-- Outcome of one `upload_single` call: the bucket contents after it, the
returned boolean, the printed line, and the put call it issued. -/
structure SingleResult where
  store : List MObject
  ok : Bool
  log : String
  call : PutCall
  deriving DecidableEq, Repr

/-- Lines 23-40: upload one CSV file.  `exc` is `none` when `put_object`
succeeds and `some msg` when it raises an exception carrying `msg`; the
exception is caught, logged with the filename, and `False` is returned. -/
def upload_single (st : List MObject) (exc : Option String) (sensor : String)
    (year month : Nat) : SingleResult :=
  let filename := taskFilename sensor year month
  let call : PutCall := ⟨BUCKET_NAME, filename, uploadData, "text/csv"⟩
  match exc with
  | none =>
      ⟨putObject st filename uploadData "text/csv", true,
        "Uploaded " ++ filename, call⟩
  | some e =>
      ⟨st, false, "Failed " ++ filename ++ ": " ++ e, call⟩

/-- Collected observations of the upload phase (lines 68-72): final bucket
contents, the per-task boolean results in task order, the printed lines,
and the put calls issued. -/
structure UploadPhase where
  store : List MObject
  results : List Bool
  logs : List String
  puts : List PutCall
  deriving DecidableEq, Repr

/-- Lines 68-72: run every task through `upload_single`.  Each task is an
independent unit of work; the pool only makes their results observable as
a collection, so the phase is a fold over the task list.  `exc j` is the
exception (if any) raised by the `j`-th task's `put_object`; `j` indexes
tasks from the given starting position. -/
def runUploads (st : List MObject) (exc : Nat → Option String) :
    List Task → Nat → UploadPhase
  | [], _ => ⟨st, [], [], []⟩
  | t :: ts, j =>
      let r := upload_single st (exc j) t.1 t.2.1 t.2.2
      let rest := runUploads r.store exc ts (j + 1)
      ⟨rest.store, r.ok :: rest.results, r.log :: rest.logs,
        r.call :: rest.puts⟩

/-- Line 72: `successful = sum(1 for f in as_completed(futures) if
f.result())` — the number of tasks whose upload returned `True`. -/
def successCount (ph : UploadPhase) : Nat :=
  ph.results.count true

/-- What a run of `main` produced, in the non-fatal cases: either the
guard fired (bucket already had data; nothing else happened), or the
upload phase ran over a generated task list. -/
inductive RunOutcome where
  | skipped (bucket : List MObject)
  | completed (tasks : List Task) (phase : UploadPhase)
  deriving DecidableEq, Repr

/-- The put calls a run issued: none when it was skipped. -/
def runPuts : RunOutcome → List PutCall
  | .skipped _ => []
  | .completed _ ph => ph.puts

/-- Lines 42-74, `main`.
`file` is the parse of `sensors.json`: `none` when the file is missing or
its JSON is malformed (both raise out of `main`, modelled as result
`none`); `bucket` is the store state: `none` when the bucket does not
exist, `some objs` its contents otherwise; `rs` feeds the random calls and
`exc` the per-task `put_object` exceptions. -/
def mainRun (file : Option (List Item)) (bucket : Option (List MObject))
    (rs : RandSrc) (exc : Nat → Option String) : Option RunOutcome :=
  match file with
  | none => none
  | some items =>
      let sensors := loadSensors items
      let proceed := fun (objs : List MObject) =>
        let tasks := (genTasks sensors rs).1
        RunOutcome.completed tasks (runUploads objs exc tasks 0)
      match bucket with
      | none => some (proceed [])
      | some objs =>
          if objs.isEmpty then some (proceed objs)
          else some (.skipped objs)

/-- A concrete environment for witnesses: only `MINIO_SECURE` is set, to
the uppercase string `TRUE`. -/
def envCaps : String → Option String :=
  fun k => if k = "MINIO_SECURE" then some "TRUE" else none

/-- Exception oracle under which every `put_object` succeeds. -/
def noExc : Nat → Option String := fun _ => none

/-- Exception oracle under which every `put_object` raises `boom`. -/
def allBoom : Nat → Option String := fun _ => some "boom"

/-! Helper lemmas about the month sampler. -/

/-- `sampleAux` returns exactly `k` elements when the pool is large
enough. -/
theorem sampleAux_length (k : Nat) :
    ∀ (pool : List Nat) (rs : RandSrc), k ≤ pool.length →
      (sampleAux pool k rs).1.length = k := by
  induction k with
  | zero => intro pool rs _; rfl
  | succ k ih =>
      intro pool rs h
      match pool with
      | [] => simp at h
      | p :: ps =>
          have hi : (draw rs).1 % (ps.length + 1) < ps.length + 1 :=
            Nat.mod_lt _ (by omega)
          have hk : k ≤
              ((p :: ps).eraseIdx ((draw rs).1 % (ps.length + 1))).length := by
            rw [List.length_eraseIdx]
            simp only [List.length_cons]
            rw [if_pos hi]
            simp only [List.length_cons] at h
            omega
          have hrec := ih _ (draw rs).2 hk
          simp only [sampleAux, List.length_cons]
          omega

/-- Every element `sampleAux` returns comes from the pool. -/
theorem sampleAux_subset (k : Nat) :
    ∀ (pool : List Nat) (rs : RandSrc) (x : Nat),
      x ∈ (sampleAux pool k rs).1 → x ∈ pool := by
  induction k with
  | zero => intro pool rs x hx; simp [sampleAux] at hx
  | succ k ih =>
      intro pool rs x hx
      match pool with
      | [] => simp [sampleAux] at hx
      | p :: ps =>
          simp only [sampleAux, List.mem_cons] at hx
          have hi : (draw rs).1 % (p :: ps).length < (p :: ps).length :=
            Nat.mod_lt _ (by simp)
          rcases hx with rfl | hx
          · rw [List.getD_eq_getElem _ _ hi]
            exact List.getElem_mem hi
          · exact List.eraseIdx_subset _ _ (ih _ _ x hx)

/-- `sampleAux` on a duplicate-free pool returns pairwise distinct
elements: the element picked at each step is removed from the pool before
the remaining picks. -/
theorem sampleAux_nodup (k : Nat) :
    ∀ (pool : List Nat) (rs : RandSrc), pool.Nodup →
      (sampleAux pool k rs).1.Nodup := by
  induction k with
  | zero => intro pool rs _; simp [sampleAux]
  | succ k ih =>
      intro pool rs hnd
      match pool with
      | [] => simp [sampleAux]
      | p :: ps =>
          simp only [sampleAux, List.nodup_cons]
          have hi : (draw rs).1 % (p :: ps).length < (p :: ps).length :=
            Nat.mod_lt _ (by simp)
          refine ⟨?_, ih _ _ (hnd.eraseIdx _)⟩
          intro hmem
          have hx := sampleAux_subset k _ _ _ hmem
          rw [List.getD_eq_getElem _ _ hi] at hx
          rw [List.mem_eraseIdx_iff_getElem] at hx
          obtain ⟨j, hj, hji, hEq⟩ := hx
          exact hji ((hnd.getElem_inj_iff).mp hEq)

/-- The month list drawn for one `(sensor, year)` pair: between 2 and 4
months, pairwise distinct, each in `[1, 12]`. -/
theorem genMonths_spec (rs : RandSrc) :
    2 ≤ (genMonths rs).1.length ∧ (genMonths rs).1.length ≤ 4 ∧
      (genMonths rs).1.Nodup ∧
      ∀ m ∈ (genMonths rs).1, 1 ≤ m ∧ m ≤ 12 := by
  have hpool : (List.range' 1 12).length = 12 := by simp
  have hk2 : 2 ≤ (randint 2 4 rs).1 := Nat.le_add_right 2 _
  have hk4 : (randint 2 4 rs).1 ≤ 4 := by
    have : (draw rs).1 % (4 + 1 - 2) < 3 := Nat.mod_lt _ (by omega)
    simp only [randint]
    omega
  have hlen : (genMonths rs).1.length = (randint 2 4 rs).1 := by
    simp only [genMonths, sampleMonths]
    exact sampleAux_length _ _ _ (by omega)
  refine ⟨by omega, by omega, ?_, ?_⟩
  · exact sampleAux_nodup _ _ _ (List.nodup_range' 1 12)
  · intro m hm
    have := sampleAux_subset (randint 2 4 rs).1 (List.range' 1 12)
      (randint 2 4 rs).2 m hm
    rw [List.mem_range'] at this
    obtain ⟨i, hi, rfl⟩ := this
    omega

/-- Every task emitted by the per-sensor year loop carries that sensor,
one of the listed years, and a month in `[1, 12]`. -/
theorem genYearTasks_mem (s : String) :
    ∀ (ys : List Nat) (rs : RandSrc) (t : Task),
      t ∈ (genYearTasks s ys rs).1 →
        t.1 = s ∧ t.2.1 ∈ ys ∧ 1 ≤ t.2.2 ∧ t.2.2 ≤ 12 := by
  intro ys
  induction ys with
  | nil => intro rs t ht; simp [genYearTasks] at ht
  | cons y ys ih =>
      intro rs t ht
      simp only [genYearTasks, List.mem_append, List.mem_map] at ht
      rcases ht with ⟨m, hm, rfl⟩ | ht
      · have := (genMonths_spec rs).2.2.2 m hm
        exact ⟨rfl, List.mem_cons_self y ys, this.1, this.2⟩
      · have := ih _ t ht
        exact ⟨this.1, List.mem_cons_of_mem y this.2.1, this.2.2⟩

/-- Every generated task names one of the loaded sensors, a configured
year and a month in `[1, 12]`. -/
theorem genTasks_mem :
    ∀ (sensors : List String) (rs : RandSrc) (t : Task),
      t ∈ (genTasks sensors rs).1 →
        t.1 ∈ sensors ∧ t.2.1 ∈ YEARS ∧ 1 ≤ t.2.2 ∧ t.2.2 ≤ 12 := by
  intro sensors
  induction sensors with
  | nil => intro rs t ht; simp [genTasks] at ht
  | cons s ss ih =>
      intro rs t ht
      simp only [genTasks, List.mem_append] at ht
      rcases ht with ht | ht
      · have := genYearTasks_mem s YEARS rs t ht
        exact ⟨this.1 ▸ List.mem_cons_self s ss, this.2⟩
      · have := ih _ t ht
        exact ⟨List.mem_cons_of_mem s this.1, this.2⟩

/-! Helper lemmas about the loader, the upload phase and the store. -/

/-- The loaded sensor list is the `id` values of the records that have
one, in file order. -/
theorem loadSensors_eq_map_filter (items : List Item) :
    loadSensors items
      = (items.filter (fun it => (List.lookup "id" it).isSome)).map
          (fun it => (List.lookup "id" it).getD "") := by
  induction items with
  | nil => rfl
  | cons it its ih =>
      simp only [loadSensors, List.filterMap_cons] at ih ⊢
      cases h : List.lookup "id" it with
      | none => simpa [List.filter_cons, h] using ih
      | some v => simpa [List.filter_cons, h] using ih

/-- The loader keeps multiplicities: each value occurs in the sensor list
as often as records carrying it occur in the input. -/
theorem loadSensors_count (items : List Item) (v : String) :
    (loadSensors items).count v
      = items.countP (fun it => List.lookup "id" it == some v) := by
  induction items with
  | nil => rfl
  | cons it its ih =>
      simp only [loadSensors, List.filterMap_cons, List.countP_cons] at ih ⊢
      cases h : List.lookup "id" it with
      | none => simp [h, ih]
      | some u =>
          by_cases hv : u = v
          · subst hv; simp [h, List.count_cons, ih]
          · simp [h, List.count_cons, hv, ih]

/-- After `putObject`, looking the name up yields exactly the object just
written: a later write to the same name overwrites the earlier one. -/
theorem findObject_putObject (objs : List MObject) (n : String)
    (b : List Nat) (c : String) :
    findObject (putObject objs n b c) n = some ⟨n, b, c⟩ := by
  unfold putObject findObject
  by_cases h : objs.any (fun o => o.name == n)
  · rw [if_pos h]
    induction objs with
    | nil => simp at h
    | cons o os ih =>
        simp only [List.map_cons, List.find?_cons]
        by_cases ho : o.name == n
        · simp [ho]
        · simp only [ho, if_neg]
          simp only [Bool.false_eq_true, if_false]
          have hos : os.any (fun o => o.name == n) = true := by
            simp only [List.any_cons, ho, Bool.false_or] at h
            exact h
          simpa [ho] using ih hos
  · rw [if_neg h]
    induction objs with
    | nil => simp [List.find?_cons]
    | cons o os ih =>
        simp only [List.any_cons, Bool.or_eq_true, not_or] at h
        simp only [List.cons_append, List.find?_cons, h.1,
          Bool.false_eq_true, if_false]
        · simpa using ih (by simp [h.2])

/-- Every task is attempted: one boolean result per task. -/
theorem runUploads_results_length (exc : Nat → Option String) :
    ∀ (tasks : List Task) (st : List MObject) (j : Nat),
      (runUploads st exc tasks j).results.length = tasks.length := by
  intro tasks
  induction tasks with
  | nil => intro st j; rfl
  | cons t ts ih =>
      intro st j
      simp only [runUploads, List.length_cons, ih]

/-- Every task issues exactly one put call. -/
theorem runUploads_puts_length (exc : Nat → Option String) :
    ∀ (tasks : List Task) (st : List MObject) (j : Nat),
      (runUploads st exc tasks j).puts.length = tasks.length := by
  intro tasks
  induction tasks with
  | nil => intro st j; rfl
  | cons t ts ih =>
      intro st j
      simp only [runUploads, List.length_cons, ih]

/-- The boolean result of the task at offset `i` is decided by that
task's own `put_object` exception alone: `true` exactly when it raised
none, whatever happened to the other tasks. -/
theorem runUploads_results_getD (exc : Nat → Option String) :
    ∀ (tasks : List Task) (st : List MObject) (j i : Nat),
      i < tasks.length →
        (runUploads st exc tasks j).results.getD i false
          = (exc (j + i)).isNone := by
  intro tasks
  induction tasks with
  | nil => intro st j i hi; simp at hi
  | cons t ts ih =>
      intro st j i hi
      match i with
      | 0 =>
          simp only [runUploads, Nat.add_zero]
          cases h : exc j with
          | none => simp [upload_single, h]
          | some e => simp [upload_single, h]
      | i + 1 =>
          simp only [runUploads, List.getD_cons_succ]
          have harith : j + 1 + i = j + (i + 1) := by omega
          rw [ih _ _ i (by simpa using hi), harith]

/-- Every put call issued by the upload phase belongs to some task of the
batch and carries the fixed bucket, filename, body and content type. -/
theorem runUploads_puts_mem (exc : Nat → Option String) :
    ∀ (tasks : List Task) (st : List MObject) (j : Nat)
      (pc : PutCall), pc ∈ (runUploads st exc tasks j).puts →
        ∃ t ∈ tasks,
          pc = ⟨BUCKET_NAME, taskFilename t.1 t.2.1 t.2.2, uploadData,
            "text/csv"⟩ := by
  intro tasks
  induction tasks with
  | nil => intro st j pc hpc; simp [runUploads] at hpc
  | cons t ts ih =>
      intro st j pc hpc
      simp only [runUploads, List.mem_cons] at hpc
      rcases hpc with hpc | hpc
      · refine ⟨t, List.mem_cons_self t ts, ?_⟩
        cases h : exc j with
        | none => rw [hpc]; simp [upload_single, h]
        | some e => rw [hpc]; simp [upload_single, h]
      · obtain ⟨u, hu, hpc⟩ := ih _ _ pc hpc
        exact ⟨u, List.mem_cons_of_mem t hu, hpc⟩

/-! The claims. -/

/-- Claim C1: when the bucket exists and already holds at least one
object, `main` returns at the guard before generating any task: the run
outcome is `skipped` and carries no put call, so either the bucket was
empty (or newly created) before any upload, or the program performs no
writes. -/
theorem claim_C1_nonempty_bucket_skips_uploads
    (items : List Item) (objs : List MObject) (rs : RandSrc)
    (exc : Nat → Option String) (h : objs ≠ []) :
    mainRun (some items) (some objs) rs exc = some (.skipped objs) ∧
    runPuts (RunOutcome.skipped objs) = [] := by
  constructor
  · simp only [mainRun]
    rw [if_neg (by simpa [List.isEmpty_iff] using h)]
  · rfl

/-- Witness for claim C1 at a one-object bucket. -/
theorem claim_C1_witness :
    mainRun (some []) (some [⟨"a", [], "x"⟩]) [] noExc
        = some (.skipped [⟨"a", [], "x"⟩]) ∧
    runPuts (RunOutcome.skipped [⟨"a", [], "x"⟩]) = [] :=
  claim_C1_nonempty_bucket_skips_uploads [] [⟨"a", [], "x"⟩] [] noExc
    (by decide)

/-- Claim C2: the loaded sensor list has exactly one entry per input
record carrying an `id` key — other fields are irrelevant and records
without `id` are discarded — and it is the sequence of those records'
`id` values in file order. -/
theorem claim_C2_loader_keeps_id_records (items : List Item) :
    (loadSensors items).length
        = (items.filter (fun it => (List.lookup "id" it).isSome)).length ∧
    loadSensors items
        = (items.filter (fun it => (List.lookup "id" it).isSome)).map
            (fun it => (List.lookup "id" it).getD "") := by
  refine ⟨?_, loadSensors_eq_map_filter items⟩
  rw [loadSensors_eq_map_filter items, List.length_map]

/-- Claim C3: every generated task uses a year from
`YEARS = [2022, 2023, 2024, 2025]` and a month in `[1, 12]`; each month
draw for a `(sensor, year)` pair yields between 2 and 4 pairwise
distinct months; and the year loop emits, for each year in turn, exactly
the tasks of one such draw. -/
theorem claim_C3_task_generator_bounds (sensors : List String)
    (rs : RandSrc) :
    (∀ t ∈ (genTasks sensors rs).1,
        t.2.1 ∈ YEARS ∧ 1 ≤ t.2.2 ∧ t.2.2 ≤ 12) ∧
    (∀ rsm : RandSrc,
        2 ≤ (genMonths rsm).1.length ∧ (genMonths rsm).1.length ≤ 4 ∧
          (genMonths rsm).1.Nodup ∧
          ∀ m ∈ (genMonths rsm).1, 1 ≤ m ∧ m ≤ 12) ∧
    (∀ (s : String) (y : Nat) (ys : List Nat) (rs0 : RandSrc),
        (genYearTasks s (y :: ys) rs0).1
          = (genMonths rs0).1.map (fun m => (s, y, m))
              ++ (genYearTasks s ys (genMonths rs0).2).1) := by
  refine ⟨?_, genMonths_spec, fun s y ys rs0 => rfl⟩
  intro t ht
  exact (genTasks_mem sensors rs t ht).2

/-- Witness for claim C3 on the first task of a concrete run. -/
theorem claim_C3_witness :
    ((("s1", 2022, 1) : Task).2.1 ∈ YEARS ∧
      1 ≤ (("s1", 2022, 1) : Task).2.2 ∧
      (("s1", 2022, 1) : Task).2.2 ≤ 12) ∧
    2 ≤ (genMonths []).1.length :=
  ⟨(claim_C3_task_generator_bounds ["s1"] []).1 ("s1", 2022, 1) (by decide),
    ((claim_C3_task_generator_bounds ["s1"] []).2.1 []).1⟩

/-- Claim C4: every put call issued for a task targets bucket `paws`,
writes the object named `{sensor}_{year}_{month:02d}.csv` of some task of
the batch, with the fixed 4-byte body and content type `text/csv`;
numbers below 10 are zero-padded to two digits. -/
theorem claim_C4_putcall_shape (st : List MObject)
    (exc : Nat → Option String) (tasks : List Task) (j : Nat) :
    (∀ pc ∈ (runUploads st exc tasks j).puts,
        pc.bucket = BUCKET_NAME ∧
        (∃ t ∈ tasks, pc.object = taskFilename t.1 t.2.1 t.2.2) ∧
        pc.body = uploadData ∧ pc.body.length = 4 ∧
        pc.contentType = "text/csv") ∧
    (∀ (s : String) (y m : Nat),
        taskFilename s y m
          = s ++ "_" ++ toString y ++ "_" ++ pad2 m ++ ".csv") ∧
    (∀ m : Nat, m < 10 → pad2 m = "0" ++ toString m) := by
  refine ⟨?_, fun s y m => rfl, ?_⟩
  · intro pc hpc
    obtain ⟨t, ht, rfl⟩ := runUploads_puts_mem exc tasks st j pc hpc
    exact ⟨rfl, ⟨t, ht, rfl⟩, rfl, (by decide : uploadData.length = 4), rfl⟩
  · intro m hm
    unfold pad2
    rw [if_pos hm]

/-- Witness for claim C4 on the put call of a concrete task. -/
theorem claim_C4_witness :
    ((⟨"paws", "a_2022_01.csv", uploadData, "text/csv"⟩ : PutCall).bucket
        = BUCKET_NAME ∧
      (∃ t ∈ [(("a" : String), (2022 : Nat), (1 : Nat))],
          (⟨"paws", "a_2022_01.csv", uploadData,
            "text/csv"⟩ : PutCall).object = taskFilename t.1 t.2.1 t.2.2) ∧
      (⟨"paws", "a_2022_01.csv", uploadData, "text/csv"⟩ : PutCall).body
        = uploadData ∧
      (⟨"paws", "a_2022_01.csv", uploadData,
        "text/csv"⟩ : PutCall).body.length = 4 ∧
      (⟨"paws", "a_2022_01.csv", uploadData,
        "text/csv"⟩ : PutCall).contentType = "text/csv") ∧
    pad2 3 = "0" ++ toString 3 :=
  ⟨(claim_C4_putcall_shape [] noExc [("a", 2022, 1)] 0).1 _ (by decide),
    (claim_C4_putcall_shape [] noExc [("a", 2022, 1)] 0).2.2 3 (by decide)⟩

/-- Claim C5: an exception from `put_object` is caught inside
`upload_single`: the store is unchanged, `False` is returned, and the
printed line carries the filename and the error message; in the batch,
every task yields a result, and the result at offset `i` is decided by
that task's own exception alone — one upload's failure neither aborts
nor affects any other upload. -/
theorem claim_C5_failure_isolated (st : List MObject)
    (exc : Nat → Option String) (tasks : List Task) (i : Nat)
    (hi : i < tasks.length) :
    (∀ (st' : List MObject) (e sensor : String) (year month : Nat),
        (upload_single st' (some e) sensor year month).ok = false ∧
        (upload_single st' (some e) sensor year month).store = st' ∧
        (upload_single st' (some e) sensor year month).log
          = "Failed " ++ taskFilename sensor year month ++ ": " ++ e) ∧
    (runUploads st exc tasks 0).results.length = tasks.length ∧
    (runUploads st exc tasks 0).results.getD i false = (exc i).isNone := by
  refine ⟨fun st' e s y m => ⟨rfl, rfl, rfl⟩,
    runUploads_results_length exc tasks st 0, ?_⟩
  have := runUploads_results_getD exc tasks st 0 i hi
  simpa using this

/-- Witness for claim C5 with every upload failing. -/
theorem claim_C5_witness :
    ((upload_single [] (some "boom") "a" 2022 1).ok = false ∧
      (upload_single [] (some "boom") "a" 2022 1).store = [] ∧
      (upload_single [] (some "boom") "a" 2022 1).log
        = "Failed " ++ taskFilename "a" 2022 1 ++ ": " ++ "boom") ∧
    (runUploads [] allBoom [("a", 2022, 1)] 0).results.getD 0 false
      = (allBoom 0).isNone :=
  ⟨(claim_C5_failure_isolated [] allBoom [("a", 2022, 1)] 0 (by decide)).1
      [] "boom" "a" 2022 1,
    (claim_C5_failure_isolated [] allBoom [("a", 2022, 1)] 0
      (by decide)).2.2⟩

/-- Claim C6: when the bucket is newly created (`none`) or exists empty,
the run completes: one put call is attempted per generated task, the
reported successful count is the number of `True` results, and it never
exceeds the attempted count. -/
theorem claim_C6_attempts_equal_tasks (items : List Item) (rs : RandSrc)
    (exc : Nat → Option String) (bucket : Option (List MObject))
    (h : bucket = none ∨ bucket = some []) :
    ∃ ph : UploadPhase,
      mainRun (some items) bucket rs exc
          = some (.completed (genTasks (loadSensors items) rs).1 ph) ∧
      ph.puts.length = (genTasks (loadSensors items) rs).1.length ∧
      successCount ph = ph.results.count true ∧
      successCount ph ≤ ph.puts.length := by
  have step : ∀ ph, ph = runUploads [] exc (genTasks (loadSensors items) rs).1 0 →
      ph.puts.length = (genTasks (loadSensors items) rs).1.length ∧
      successCount ph = ph.results.count true ∧
      successCount ph ≤ ph.puts.length := by
    rintro ph rfl
    have h1 := runUploads_results_length exc
      (genTasks (loadSensors items) rs).1 [] 0
    have h2 := runUploads_puts_length exc
      (genTasks (loadSensors items) rs).1 [] 0
    have h3 := List.count_le_length true
      (runUploads [] exc (genTasks (loadSensors items) rs).1 0).results
    refine ⟨h2, rfl, ?_⟩
    simp only [successCount]
    omega
  rcases h with rfl | rfl
  · exact ⟨_, rfl, step _ rfl⟩
  · exact ⟨_, rfl, step _ rfl⟩

/-- Witness for claim C6 with a nonexistent bucket. -/
theorem claim_C6_witness :
    ∃ ph : UploadPhase,
      mainRun (some [[("id", "s1")]]) none [] noExc
          = some (.completed
              (genTasks (loadSensors [[("id", "s1")]]) []).1 ph) ∧
      ph.puts.length
        = (genTasks (loadSensors [[("id", "s1")]]) []).1.length ∧
      successCount ph = ph.results.count true ∧
      successCount ph ≤ ph.puts.length :=
  claim_C6_attempts_equal_tasks [[("id", "s1")]] [] noExc none (Or.inl rfl)

/-- Claim C7 fails as stated: with `MINIO_SECURE` set to the uppercase
string `TRUE`, the client is configured secure although the variable is
not the exact string `true` — the code lowercases the value before
comparing. -/
theorem claim_C7_counterexample :
    ¬ ((create_minio_client envCaps).secure = true
        ↔ envCaps "MINIO_SECURE" = some "true") := by
  decide

/-- Claim C7 amended: the endpoint is `MINIO_ENDPOINT` with default
`localhost:9000`; secure mode defaults to off when `MINIO_SECURE` is
unset, and otherwise is enabled exactly when the value lowercased equals
`true` — a case-insensitive match rather than equality with the exact
string `true`. -/
theorem claim_C7_env_config (env : String → Option String) :
    (create_minio_client env).endpoint
        = (env "MINIO_ENDPOINT").getD "localhost:9000" ∧
    (env "MINIO_SECURE" = none → (create_minio_client env).secure = false) ∧
    (∀ v : String, env "MINIO_SECURE" = some v →
        ((create_minio_client env).secure = true ↔ strLower v = "true")) := by
  refine ⟨rfl, ?_, ?_⟩
  · intro h
    simp only [create_minio_client, h, Option.getD_none]
    decide
  · intro v hv
    simp only [create_minio_client, hv, Option.getD_some]
    exact beq_iff_eq

/-- Witness for the amended claim C7 at the uppercase environment. -/
theorem claim_C7_witness :
    (create_minio_client envCaps).endpoint
        = (envCaps "MINIO_ENDPOINT").getD "localhost:9000" ∧
    ((create_minio_client envCaps).secure = true
        ↔ strLower "TRUE" = "true") :=
  ⟨(claim_C7_env_config envCaps).1,
    (claim_C7_env_config envCaps).2.2 "TRUE" (by decide)⟩

/-- Claim C8: a missing or malformed `sensors.json` makes the load raise
out of `main`: the run produces nothing, and the outcome is the same
whatever the bucket held, the random draws, or the per-task exceptions —
the program aborts before any bucket check or upload. -/
theorem claim_C8_fatal_load_aborts (bucket bucket' : Option (List MObject))
    (rs rs' : RandSrc) (exc exc' : Nat → Option String) :
    mainRun none bucket rs exc = none ∧
    mainRun none bucket rs exc = mainRun none bucket' rs' exc' :=
  ⟨rfl, rfl⟩

/-- Claim C9: the loader deduplicates nothing — each `id` value occurs in
the sensor list as often as records carrying it occur in the input — a
duplicated record yields a duplicated sensor, tasks are generated per
occurrence (here the same task twice), and with the store's name-keyed
writes the later write to a name overwrites the earlier one. -/
theorem claim_C9_no_dedup :
    (∀ (items : List Item) (v : String),
        (loadSensors items).count v
          = items.countP (fun it => List.lookup "id" it == some v)) ∧
    loadSensors [[("id", "s1")], [("id", "s1")]] = ["s1", "s1"] ∧
    (genTasks ["s1", "s1"] []).1.count ("s1", 2022, 1) = 2 ∧
    (∀ (objs : List MObject) (n : String) (b1 b2 : List Nat)
        (c1 c2 : String),
        findObject (putObject (putObject objs n b1 c1) n b2 c2) n
          = some ⟨n, b2, c2⟩) :=
  ⟨loadSensors_count, by decide, by decide,
    fun objs n b1 b2 c1 c2 => findObject_putObject _ n b2 c2⟩

/-- Claim C10: the body uploaded for every task is exactly the 4 ASCII
bytes of `test`, identical across all uploads of any run. -/
theorem claim_C10_payload_test_bytes :
    uploadData = [116, 101, 115, 116] ∧ uploadData.length = 4 ∧
    ∀ (st : List MObject) (exc : Nat → Option String) (tasks : List Task)
      (j : Nat), ∀ pc ∈ (runUploads st exc tasks j).puts,
        pc.body = uploadData := by
  refine ⟨by decide, by decide, ?_⟩
  intro st exc tasks j pc hpc
  obtain ⟨t, _, rfl⟩ := runUploads_puts_mem exc tasks st j pc hpc
  rfl

/-- Witness for claim C10 on the put call of a concrete task. -/
theorem claim_C10_witness :
    (⟨"paws", "a_2022_01.csv", uploadData, "text/csv"⟩ : PutCall).body
      = uploadData :=
  claim_C10_payload_test_bytes.2.2 [] noExc [("a", 2022, 1)] 0 _ (by decide)

end UploadScript
